import Mathlib

/-!
Verification of the tridentine_calendar liturgical-calendar engine.

This file gives a shallow embedding of the date arithmetic of
`src/tridentine_calendar/` (the authoritative revision of the package):
`feast_dates.py`, `utils.py` and `tridentine_calendar.py`.

Dates are embedded by their proleptic-Gregorian ordinal (the value of
Python's `datetime.date.toordinal`, an `Int`), together with a record
`PyDate` of the (year, month, day) fields for the places where the source
reads a date's `.year` or constructs a literal `datetime.date`.  Python's
`date.weekday()` (Monday = 0, Sunday = 6) becomes `weekdayOfOrd` on
ordinals; comparison and day arithmetic on dates becomes comparison and
addition on ordinals, which is faithful because `toOrd` is strictly
monotone on valid dates.  Python's `//` and `%` on ints agree with Lean's
`Int` division and modulus whenever the divisor is positive (both are
then floor division with a non-negative remainder), which covers every
division in the source.
-/

namespace Trident

/-- Python's `calendar.isleap`. -/
def isleapB (y : Int) : Bool := y % 4 == 0 && (y % 100 != 0 || y % 400 == 0)

/-- The leap-day count of year `y` (1 on leap years, else 0). -/
def leapN (y : Int) : Int := if isleapB y then 1 else 0

/-- Number of days in month `m` of year `y` (Python `calendar.monthrange` /
`datetime`'s internal `_days_in_month`). -/
def daysInMonth (y m : Int) : Int :=
  if m = 1 then 31 else if m = 2 then 28 + leapN y else if m = 3 then 31
  else if m = 4 then 30 else if m = 5 then 31 else if m = 6 then 30
  else if m = 7 then 31 else if m = 8 then 31 else if m = 9 then 30
  else if m = 10 then 31 else if m = 11 then 30 else 31

/-- Number of days in year `y` preceding the first of month `m`
(Python `datetime`'s `_days_before_month`). -/
def daysBeforeMonth (y m : Int) : Int :=
  if m ≤ 1 then 0 else if m = 2 then 31 else if m = 3 then 59 + leapN y
  else if m = 4 then 90 + leapN y else if m = 5 then 120 + leapN y
  else if m = 6 then 151 + leapN y else if m = 7 then 181 + leapN y
  else if m = 8 then 212 + leapN y else if m = 9 then 243 + leapN y
  else if m = 10 then 273 + leapN y else if m = 11 then 304 + leapN y
  else 334 + leapN y

/-- Number of days before January 1 of year `y` (Python `datetime`'s
`_days_before_year`), so that January 1 of year 1 has ordinal 1. -/
def epochDays (y : Int) : Int :=
  365 * (y - 1) + (y - 1) / 4 - (y - 1) / 100 + (y - 1) / 400

/-- A Python `datetime.date` value: its year, month and day fields. -/
structure PyDate where
  year : Int
  month : Int
  day : Int
deriving DecidableEq, Repr

/-- The value range Python's `datetime.date` accepts. -/
def PyDate.Valid (d : PyDate) : Prop :=
  1 ≤ d.year ∧ d.year ≤ 9999 ∧ 1 ≤ d.month ∧ d.month ≤ 12 ∧
    1 ≤ d.day ∧ d.day ≤ daysInMonth d.year d.month

instance (d : PyDate) : Decidable d.Valid := by
  unfold PyDate.Valid; infer_instance

/-- Python's `date.toordinal()`. -/
def toOrd (d : PyDate) : Int :=
  epochDays d.year + daysBeforeMonth d.year d.month + d.day

/-- Python's `date.weekday()` of the date with ordinal `o`
(Monday = 0, ..., Sunday = 6). -/
def weekdayOfOrd (o : Int) : Int := (o + 6) % 7

/-- Ordinal of December 25 of year `y` (the source constructs
`dt.date(year, 12, 25)` and `dt.date(year - 1, 12, 25)` throughout). -/
def xmasOrd (y : Int) : Int := toOrd ⟨y, 12, 25⟩

/-! ### Computus (`feast_dates.computus`)

The intermediate quantities `a` … `m` of the Butcher/Meeus algorithm are
split into named functions so that proofs can unfold them; the bodies are
the source's expressions verbatim. -/

def cA (y : Int) : Int := y % 19
def cB (y : Int) : Int := y / 100
def cC (y : Int) : Int := y % 100
def cD (y : Int) : Int := cB y / 4
def cE (y : Int) : Int := cB y % 4
def cF (y : Int) : Int := (cB y + 8) / 25
def cG (y : Int) : Int := (cB y - cF y + 1) / 3
def cH (y : Int) : Int := (19 * cA y + cB y - cD y - cG y + 15) % 30
def cI (y : Int) : Int := cC y / 4
def cK (y : Int) : Int := cC y % 4
def cL (y : Int) : Int := (32 + 2 * cE y + 2 * cI y - cH y - cK y) % 7
def cM (y : Int) : Int := (cA y + 11 * cH y + 22 * cL y) / 451

/-- The quantity `h + l - 7 * m + 114` from which `computus` reads off
the month (`T / 31`) and day (`T % 31 + 1`) of Easter. -/
def computusT (y : Int) : Int := cH y + cL y - 7 * cM y + 114

/-- The (month, day) pair computed by `feast_dates.computus`. -/
def computusMD (y : Int) : Int × Int :=
  (computusT y / 31, computusT y % 31 + 1)

/-- `feast_dates.computus(year)` as a date ordinal: the date of Easter. -/
def computus (year : Int) : Int :=
  toOrd ⟨year, (computusMD year).1, (computusMD year).2⟩

/-! ### Movable feast dates (`feast_dates.py`)

Each function returns the ordinal(s) of the Python function of the same
name.  `dt.timedelta` addition and subtraction become `Int` addition and
subtraction on ordinals.  The two `sorted(...)` calls in the source
(`advent_embertide`, `whit_embertide`) receive lists that are already in
ascending order, so they are embedded as the plain list literals. -/

def easter (year : Int) : Int := computus year

def gaudete_sunday (year : Int) : Int :=
  xmasOrd (year - 1) - (weekdayOfOrd (xmasOrd (year - 1)) + 8)

def advent_embertide (year : Int) : List Int :=
  [gaudete_sunday year + 3, gaudete_sunday year + 5, gaudete_sunday year + 6]

def sunday_within_the_octave_of_xmas (year : Int) : Int :=
  if xmasOrd (year - 1) + (6 - weekdayOfOrd (xmasOrd (year - 1))) = xmasOrd (year - 1) then
    xmasOrd (year - 1) + (6 - weekdayOfOrd (xmasOrd (year - 1))) + 7
  else
    xmasOrd (year - 1) + (6 - weekdayOfOrd (xmasOrd (year - 1)))

def holy_name (year : Int) : Int :=
  if toOrd ⟨year, 1, 1⟩ + (6 - weekdayOfOrd (toOrd ⟨year, 1, 1⟩)) = toOrd ⟨year, 1, 1⟩ ∨
      toOrd ⟨year, 1, 1⟩ + (6 - weekdayOfOrd (toOrd ⟨year, 1, 1⟩)) = toOrd ⟨year, 1, 6⟩ ∨
      toOrd ⟨year, 1, 1⟩ + (6 - weekdayOfOrd (toOrd ⟨year, 1, 1⟩)) = toOrd ⟨year, 1, 7⟩ then
    toOrd ⟨year, 1, 2⟩
  else
    toOrd ⟨year, 1, 1⟩ + (6 - weekdayOfOrd (toOrd ⟨year, 1, 1⟩))

def holy_family (year : Int) : Int :=
  if 6 - weekdayOfOrd (toOrd ⟨year, 1, 6⟩) = 0 then
    toOrd ⟨year, 1, 6⟩ + 7
  else
    toOrd ⟨year, 1, 6⟩ + (6 - weekdayOfOrd (toOrd ⟨year, 1, 6⟩))

def plough_monday (year : Int) : Int :=
  if weekdayOfOrd (toOrd ⟨year, 1, 6⟩) = 6 then toOrd ⟨year, 1, 6⟩ + 1
  else holy_family year + 1

def ash_wednesday (year : Int) : Int := easter year - 46

def lenten_embertide (year : Int) : List Int :=
  [ash_wednesday year + 7, ash_wednesday year + 9, ash_wednesday year + 10]

def quinquagesima (year : Int) : Int := ash_wednesday year - 3

def fat_thursday (year : Int) : Int := ash_wednesday year - 6

def shrove_monday (year : Int) : Int := ash_wednesday year - 2

def mardi_gras (year : Int) : Int := ash_wednesday year - 1

def sexagesima (year : Int) : Int := quinquagesima year - 7

def septuagesima (year : Int) : Int := sexagesima year - 7

def st_matthias (year : Int) : Int :=
  if isleapB year then toOrd ⟨year, 2, 25⟩ else toOrd ⟨year, 2, 24⟩

def st_gabriel_of_our_lady_of_sorrows (year : Int) : Int :=
  if isleapB year then toOrd ⟨year, 2, 28⟩ else toOrd ⟨year, 2, 27⟩

def laetare_sunday (year : Int) : Int := computus year - 21

def passion_sunday (year : Int) : Int := computus year - 14

def palm_sunday (year : Int) : Int := easter year - 7

def seven_sorrows (year : Int) : Int := palm_sunday year - 2

def quasimodo_sunday (year : Int) : Int := easter year + 7

def lady_day (year : Int) : Int :=
  if palm_sunday year ≤ toOrd ⟨year, 3, 25⟩ ∧ toOrd ⟨year, 3, 25⟩ ≤ quasimodo_sunday year then
    quasimodo_sunday year + 1
  else if weekdayOfOrd (toOrd ⟨year, 3, 25⟩) = 6 then
    toOrd ⟨year, 3, 25⟩ + 1
  else
    toOrd ⟨year, 3, 25⟩

def spy_wednesday (year : Int) : Int := easter year - 4

def maundy_thursday (year : Int) : Int := easter year - 3

def good_friday (year : Int) : Int := easter year - 2

def holy_saturday (year : Int) : Int := easter year - 1

def misericordia_sunday (year : Int) : Int := computus year + 14

def jubilate_sunday (year : Int) : Int := computus year + 21

def cantate_sunday (year : Int) : Int := computus year + 28

def major_rogation (year : Int) : Int :=
  if toOrd ⟨year, 4, 25⟩ ≠ computus year then toOrd ⟨year, 4, 25⟩
  else toOrd ⟨year, 4, 25⟩ + 2

def ascension (year : Int) : Int := computus year + 39

def minor_rogation (year : Int) : List Int :=
  [ascension year - 3, ascension year - 2, ascension year - 1]

def pentecost (year : Int) : Int := computus year + 49

def whit_embertide (year : Int) : List Int :=
  [pentecost year + 3, pentecost year + 5, pentecost year + 6]

def trinity_sunday (year : Int) : Int := pentecost year + 7

def corpus_christi (year : Int) : Int := trinity_sunday year + 4

def sacred_heart (year : Int) : Int := corpus_christi year + 8

def peters_pence (year : Int) : Int :=
  toOrd ⟨year, 6, 29⟩ + ((2 - weekdayOfOrd (toOrd ⟨year, 6, 29⟩)) % 7 - 3)

def first_sunday_in_september (year : Int) : Int :=
  toOrd ⟨year, 9, 1⟩ + (6 - weekdayOfOrd (toOrd ⟨year, 9, 1⟩))

def third_sunday_in_september (year : Int) : Int :=
  first_sunday_in_september year + 14

def michaelmas_embertide (year : Int) : List Int :=
  [third_sunday_in_september year + 3, third_sunday_in_september year + 5,
    third_sunday_in_september year + 6]

def christ_the_king (year : Int) : Int :=
  toOrd ⟨year, 10, 31⟩ - (weekdayOfOrd (toOrd ⟨year, 10, 31⟩) + 1) % 7

/-! ### Liturgical year boundaries (`utils.py`) -/

/-- `utils.liturgical_year_start(year)`: the First Sunday of Advent
preceding Christmas of `year - 1`. -/
def liturgical_year_start (year : Int) : Int :=
  xmasOrd (year - 1) - (weekdayOfOrd (xmasOrd (year - 1)) + 22)

/-- `utils.liturgical_year_end(year)`: the Saturday before the next
First Sunday of Advent. -/
def liturgical_year_end (year : Int) : Int :=
  xmasOrd year - (weekdayOfOrd (xmasOrd year) + 23)

/-- `utils.liturgical_year(date)`: the liturgical year a date belongs to. -/
def liturgical_year (d : PyDate) : Int :=
  if toOrd d ≤ liturgical_year_end d.year then d.year else d.year + 1

/-! ### Season classifier (`LiturgicalSeason.from_date`)

The result is the season key selected by the if/elif chain, or `none` for
the final `raise ValueError` branch.  Note that the Holy Week test uses
`date.year` where every other test uses the computed liturgical year,
exactly as in the source (line 150 of `tridentine_calendar.py`). -/

def seasonOfDate (d : PyDate) : Option String :=
  if toOrd d = fat_thursday (liturgical_year d) ∨
      toOrd d = shrove_monday (liturgical_year d) ∨
      toOrd d = mardi_gras (liturgical_year d) then
    some "Shrovetide"
  else if liturgical_year_start (liturgical_year d) ≤ toOrd d ∧
      toOrd d < xmasOrd (liturgical_year d - 1) then
    some "Advent"
  else if xmasOrd (liturgical_year d - 1) ≤ toOrd d ∧
      toOrd d < toOrd ⟨liturgical_year d, 1, 6⟩ then
    some "Christmastide"
  else if toOrd ⟨liturgical_year d, 1, 6⟩ ≤ toOrd d ∧
      toOrd d < septuagesima (liturgical_year d) then
    some "Time after Epiphany"
  else if septuagesima (liturgical_year d) ≤ toOrd d ∧
      toOrd d < ash_wednesday (liturgical_year d) then
    some "Septuagesima"
  else if ash_wednesday (liturgical_year d) ≤ toOrd d ∧
      toOrd d < passion_sunday (liturgical_year d) then
    some "Lent"
  else if passion_sunday (liturgical_year d) ≤ toOrd d ∧
      toOrd d < palm_sunday (liturgical_year d) then
    some "Passiontide"
  else if palm_sunday d.year ≤ toOrd d ∧
      toOrd d < maundy_thursday (liturgical_year d) then
    some "Holy Week"
  else if maundy_thursday (liturgical_year d) ≤ toOrd d ∧
      toOrd d < easter (liturgical_year d) then
    some "Paschal Triduum"
  else if easter (liturgical_year d) ≤ toOrd d ∧
      toOrd d < pentecost (liturgical_year d) then
    some "Eastertide"
  else if pentecost (liturgical_year d) ≤ toOrd d ∧
      toOrd d < toOrd ⟨liturgical_year d, 10, 31⟩ then
    some "Time after Pentecost"
  else if toOrd ⟨liturgical_year d, 10, 31⟩ ≤ toOrd d ∧
      toOrd d < toOrd ⟨liturgical_year d, 11, 3⟩ then
    some "Hallowtide"
  else if toOrd ⟨liturgical_year d, 11, 3⟩ ≤ toOrd d ∧
      toOrd d ≤ liturgical_year_end (liturgical_year d) then
    some "Time after Pentecost"
  else
    none

/-! ### Event model and the precedence sort (`tridentine_calendar.py`)

Only the fields consulted by `_feast_sort_key` are carried (plus the name,
so that distinct events stay distinguishable); `rank` is `None`-able in
the source, hence `Option Int`.  Python's `not feast.rank` is true both
for `None` and for a zero rank. -/

structure LiturgicalCalendarEvent where
  name : String
  rank : Option Int
  liturgical_event : Bool
  addition : Bool
deriving DecidableEq, Repr

/-- `_feast_sort_key` (lines 658-673 of `tridentine_calendar.py`). -/
def feast_sort_key (feast : LiturgicalCalendarEvent) : ℚ :=
  if feast.liturgical_event = false ∨ feast.rank = none ∨ feast.rank = some 0 then 4
  else if feast.addition then ((feast.rank.getD 0 : Int) : ℚ) + 0.5
  else ((feast.rank.getD 0 : Int) : ℚ)

/-- The per-day sort `sorted(self.calendar[date], key=_feast_sort_key)`
(line 594).  Python's `sorted` is a stable sort, as is `List.mergeSort`. -/
def sortDayEvents (l : List LiturgicalCalendarEvent) : List LiturgicalCalendarEvent :=
  l.mergeSort fun a b => decide (feast_sort_key a ≤ feast_sort_key b)

/-! ### Color derivation (`LiturgicalCalendarEvent.__init__`, lines 254-268)

The season (name and color) and the result of `is_fixed()` depend on
external JSON metadata, so they are taken as parameters; the branch
structure is the source's. -/

def derivedEventColor (seasonName seasonColor : String) (rank : Option Int)
    (liturgical_event fixed : Bool) (titles : List String) : String :=
  if liturgical_event = true ∧ rank ≠ some 4 ∧ fixed = true ∧
      ¬(rank ≠ some 1 ∧ (seasonName = "Lent" ∨ seasonName = "Passiontide")) then
    if "Martyr" ∈ titles ∨ "Apostle" ∈ titles ∨ "Evangelist" ∈ titles then "Red"
    else "White"
  else seasonColor

/-- The color rule as worded by the specification (for comparison with
`derivedEventColor`): White unless (a) no special liturgy, or (b) rank 4,
or (c) the event is itself movable (not fixed) AND falls during
Lent/Passiontide at other than the highest rank; Martyr/Apostle/Evangelist
turn White into Red. -/
def claimEventColor (seasonName seasonColor : String) (rank : Option Int)
    (liturgical_event fixed : Bool) (titles : List String) : String :=
  if liturgical_event = true ∧ rank ≠ some 4 ∧
      ¬(fixed = false ∧ (seasonName = "Lent" ∨ seasonName = "Passiontide") ∧
        rank ≠ some 1) then
    if "Martyr" ∈ titles ∨ "Apostle" ∈ titles ∨ "Evangelist" ∈ titles then "Red"
    else "White"
  else seasonColor

/-! ### Multi-year composition (`LiturgicalCalendar`)

`LiturgicalCalendar.__init__` stores one `LiturgicalYear` per requested
year in a dictionary; `__getitem__(key)` evaluates
`self.liturgical_years[utils.liturgical_year(key)][key]`, raising
`KeyError` when the computed liturgical year was never loaded.  The
per-year assembly is abstracted as a function from date ordinals to the
day's events (`none` = ordinal outside that year's range, which also
raises `KeyError` in the source). -/

structure LiturgicalCalendarModel where
  liturgical_years : List (Int × (Int → Option (List LiturgicalCalendarEvent)))

def LiturgicalCalendarModel.ofYears (years : List Int)
    (build : Int → Int → Option (List LiturgicalCalendarEvent)) :
    LiturgicalCalendarModel :=
  ⟨years.map fun y => (y, build y)⟩

def LiturgicalCalendarModel.getItem (cal : LiturgicalCalendarModel) (d : PyDate) :
    Except String (List LiturgicalCalendarEvent) :=
  match cal.liturgical_years.lookup (liturgical_year d) with
  | none => .error "KeyError: liturgical year not loaded"
  | some ly =>
    match ly (toOrd d) with
    | none => .error "KeyError: date not in liturgical year"
    | some evs => .ok evs

/-! ### The assembly passes' dates (`LiturgicalYear.__init__`)

For the missing-key-safety claim only the *dates* touched by the movable
and positional passes matter.  `all_movable_feast_dates` lists, in
registry order, every ordinal appended by the `function_name_pairs` loop
(lines 468-537); the positional-Sunday passes (lines 539-583) follow. -/

def all_movable_feast_dates (y : Int) : List Int :=
  [gaudete_sunday y] ++ advent_embertide y ++
  [sunday_within_the_octave_of_xmas y, holy_name y, holy_family y,
    plough_monday y, septuagesima y, sexagesima y, quinquagesima y,
    fat_thursday y, shrove_monday y, mardi_gras y, ash_wednesday y] ++
  lenten_embertide y ++
  [st_matthias y, st_gabriel_of_our_lady_of_sorrows y, lady_day y,
    laetare_sunday y, passion_sunday y, seven_sorrows y, palm_sunday y,
    palm_sunday y + 1, palm_sunday y + 2, spy_wednesday y,
    maundy_thursday y, good_friday y, holy_saturday y, easter y,
    easter y + 1, easter y + 2, easter y + 3, easter y + 4, easter y + 5,
    easter y + 6, quasimodo_sunday y, jubilate_sunday y,
    misericordia_sunday y, cantate_sunday y, major_rogation y,
    ascension y] ++
  minor_rogation y ++
  [pentecost y, pentecost y + 1, pentecost y + 2, pentecost y + 4] ++
  whit_embertide y ++
  [trinity_sunday y, corpus_christi y, sacred_heart y, peters_pence y] ++
  michaelmas_embertide y ++
  [christ_the_king y]

/-- The `1st/2nd/4th Sunday of Advent` dates (lines 540-545; the third is
Gaudete Sunday and is skipped). -/
def advent_sunday_dates (y : Int) : List Int :=
  [liturgical_year_start y, liturgical_year_start y + 7,
    liturgical_year_start y + 21]

/-- The `while date < limit` loop stepping a week at a time, collecting
the visited dates (Sundays after Epiphany, lines 548-555). -/
def sundaysUntil (d limit : Int) : List Int :=
  if d < limit then d :: sundaysUntil (d + 7) limit else []
termination_by (limit - d).toNat
decreasing_by simp_wf; omega

def epiphany_sunday_dates (y : Int) : List Int :=
  sundaysUntil (holy_family y + 7) (septuagesima y)

/-- The `1st-3rd Sunday of Lent` dates (lines 558-561). -/
def lent_sunday_dates (y : Int) : List Int :=
  [quinquagesima y + 7, quinquagesima y + 14, quinquagesima y + 21]

/-- `Fifth Sunday after Easter` and `Sunday after Ascension`
(lines 564-570). -/
def eastertide_sunday_dates (y : Int) : List Int :=
  [cantate_sunday y + 7, ascension y + 3]

/-- The `while date <= limit` loop of the Sundays after Pentecost
(lines 573-580): first component the visited dates, second component the
loop variable at exit, to which `Last Sunday after Pentecost` is appended
(lines 582-583). -/
def pentecost_sundays (d limit : Int) : List Int × Int :=
  if d ≤ limit then
    ((pentecost_sundays (d + 7) limit).1.cons d, (pentecost_sundays (d + 7) limit).2)
  else ([], d)
termination_by (limit + 1 - d).toNat
decreasing_by simp_wf; omega

def pentecost_sunday_dates (y : Int) : List Int :=
  (pentecost_sundays (trinity_sunday y + 7) (liturgical_year_end y - 7)).1 ++
    [(pentecost_sundays (trinity_sunday y + 7) (liturgical_year_end y - 7)).2]

def all_positional_sunday_dates (y : Int) : List Int :=
  advent_sunday_dates y ++ epiphany_sunday_dates y ++ lent_sunday_dates y ++
    eastertide_sunday_dates y ++ pentecost_sunday_dates y

/-! ## Helper lemmas -/

theorem leapN_bounds (y : Int) : 0 ≤ leapN y ∧ leapN y ≤ 1 := by
  unfold leapN; split <;> simp

theorem computusT_range (y : Int) : 114 ≤ computusT y ∧ computusT y ≤ 148 := by
  unfold computusT cM cL cK cI cH cG cF cE cD cC cA cB
  omega

theorem computus_eq (y : Int) :
    computus y = epochDays y + leapN y + computusT y - 33 := by
  have hT := computusT_range y
  unfold computus toOrd computusMD
  by_cases h : computusT y ≤ 123
  · have h31 : computusT y / 31 = 3 := by omega
    simp only [h31, daysBeforeMonth]
    norm_num
    omega
  · have h31 : computusT y / 31 = 4 := by omega
    simp only [h31, daysBeforeMonth]
    norm_num
    omega

theorem computus_mod7 (y : Int) : computus y % 7 = 0 := by
  rw [computus_eq]
  have hl : cL y = (32 + 2 * cE y + 2 * cI y - cH y - cK y) % 7 := rfl
  have hkey : (epochDays y + leapN y +
      (32 + 2 * cE y + 2 * cI y - cK y) + 81) % 7 = 0 := by
    unfold epochDays leapN isleapB cE cI cK cB cC
    simp only [Bool.and_eq_true, beq_iff_eq, Bool.or_eq_true, bne_iff_ne,
      decide_eq_true_eq]
    have h1 : (y - 1) / 4 - (y - 1) / 100 + (y - 1) / 400 +
        (if y % 4 = 0 ∧ (y % 100 ≠ 0 ∨ y % 400 = 0) then (1 : Int) else 0) =
        y / 4 - y / 100 + y / 400 := by
      split <;> omega
    have h2 : y / 4 = 25 * (y / 100) + y % 100 / 4 := by omega
    have h3 : y / 400 = y / 100 / 4 := by omega
    split at h1 <;> split <;> omega
  unfold computusT
  omega

theorem epochDays_succ (y : Int) :
    epochDays (y + 1) = epochDays y + 365 + leapN y := by
  unfold epochDays leapN isleapB
  simp only [Bool.and_eq_true, beq_iff_eq, Bool.or_eq_true, bne_iff_ne,
    decide_eq_true_eq]
  split <;> omega

theorem epochDays_add_nat (y : Int) (n : ℕ) :
    epochDays y + 365 * n ≤ epochDays (y + n) ∧
      epochDays (y + n) ≤ epochDays y + 366 * n := by
  induction n with
  | zero => simp
  | succ k ih =>
    have h1 : (y + (k + 1 : ℕ)) = (y + k) + 1 := by push_cast; ring
    have h2 := epochDays_succ (y + k)
    have h3 := leapN_bounds (y + k)
    rw [h1, h2]
    push_cast
    push_cast at ih
    constructor <;> nlinarith [ih.1, ih.2]

theorem epochDays_le_of_le {a b : Int} (h : a ≤ b) :
    epochDays a + 365 * (b - a) ≤ epochDays b ∧
      epochDays b ≤ epochDays a + 366 * (b - a) := by
  obtain ⟨n, rfl⟩ : ∃ n : ℕ, b = a + n := ⟨(b - a).toNat, by omega⟩
  have := epochDays_add_nat a n
  constructor <;> [nlinarith [this.1]; nlinarith [this.2]]

theorem daysBeforeMonth_bounds (y m : Int) (h1 : 1 ≤ m) (h2 : m ≤ 12) :
    0 ≤ daysBeforeMonth y m ∧
      daysBeforeMonth y m + daysInMonth y m ≤ 365 + leapN y := by
  have hl := leapN_bounds y
  interval_cases m <;> simp [daysBeforeMonth, daysInMonth] <;> omega

theorem toOrd_bounds (d : PyDate) (hv : d.Valid) :
    epochDays d.year + 1 ≤ toOrd d ∧ toOrd d ≤ epochDays (d.year + 1) := by
  obtain ⟨-, -, hm1, hm2, hd1, hd2⟩ := hv
  have hb := daysBeforeMonth_bounds d.year d.month hm1 hm2
  have hs := epochDays_succ d.year
  unfold toOrd
  omega

theorem xmasOrd_eq (y : Int) : xmasOrd y = epochDays y + 359 + leapN y := by
  show epochDays y + daysBeforeMonth y 12 + 25 = _
  unfold daysBeforeMonth
  norm_num
  omega

theorem xmasOrd_prev (y : Int) : xmasOrd (y - 1) = epochDays y - 6 := by
  have h1 := xmasOrd_eq (y - 1)
  have h2 := epochDays_succ (y - 1)
  rw [show y - 1 + 1 = y by ring] at h2
  omega

theorem lys_eq (y : Int) :
    liturgical_year_start y = epochDays y - 28 - epochDays y % 7 := by
  unfold liturgical_year_start weekdayOfOrd
  rw [xmasOrd_prev]
  omega

theorem lye_eq (y : Int) :
    liturgical_year_end y =
      epochDays y + leapN y + 336 - (epochDays y + leapN y + 1) % 7 := by
  unfold liturgical_year_end weekdayOfOrd
  rw [xmasOrd_eq]
  omega

theorem easter_bounds (y : Int) :
    epochDays y + leapN y + 81 ≤ computus y ∧
      computus y ≤ epochDays y + leapN y + 115 := by
  have h1 := computus_eq y
  have h2 := computusT_range y
  omega

theorem toOrd_jan (y n : Int) : toOrd ⟨y, 1, n⟩ = epochDays y + n := by
  show epochDays y + daysBeforeMonth y 1 + n = _
  unfold daysBeforeMonth
  norm_num

theorem toOrd_feb (y n : Int) : toOrd ⟨y, 2, n⟩ = epochDays y + 31 + n := by
  show epochDays y + daysBeforeMonth y 2 + n = _
  unfold daysBeforeMonth
  norm_num

theorem toOrd_mar (y n : Int) :
    toOrd ⟨y, 3, n⟩ = epochDays y + 59 + leapN y + n := by
  show epochDays y + daysBeforeMonth y 3 + n = _
  unfold daysBeforeMonth
  norm_num
  omega

theorem toOrd_apr (y n : Int) :
    toOrd ⟨y, 4, n⟩ = epochDays y + 90 + leapN y + n := by
  show epochDays y + daysBeforeMonth y 4 + n = _
  unfold daysBeforeMonth
  norm_num
  omega

theorem toOrd_jun (y n : Int) :
    toOrd ⟨y, 6, n⟩ = epochDays y + 151 + leapN y + n := by
  show epochDays y + daysBeforeMonth y 6 + n = _
  unfold daysBeforeMonth
  norm_num
  omega

theorem toOrd_sep (y n : Int) :
    toOrd ⟨y, 9, n⟩ = epochDays y + 243 + leapN y + n := by
  show epochDays y + daysBeforeMonth y 9 + n = _
  unfold daysBeforeMonth
  norm_num
  omega

theorem toOrd_oct (y n : Int) :
    toOrd ⟨y, 10, n⟩ = epochDays y + 273 + leapN y + n := by
  show epochDays y + daysBeforeMonth y 10 + n = _
  unfold daysBeforeMonth
  norm_num
  omega

theorem toOrd_nov (y n : Int) :
    toOrd ⟨y, 11, n⟩ = epochDays y + 304 + leapN y + n := by
  show epochDays y + daysBeforeMonth y 11 + n = _
  unfold daysBeforeMonth
  norm_num
  omega

theorem liturgical_year_eq (d : PyDate) (Y : Int) (hv : d.Valid)
    (h1 : liturgical_year_end (Y - 1) < toOrd d)
    (h2 : toOrd d ≤ liturgical_year_end Y) : liturgical_year d = Y := by
  have htb := toOrd_bounds d hv
  have heY := lye_eq Y
  have heY1 := lye_eq (Y - 1)
  have hlY := leapN_bounds Y
  have hlY1 := leapN_bounds (Y - 1)
  have hsY1 := epochDays_succ (Y - 1)
  rw [show Y - 1 + 1 = Y by ring] at hsY1
  have hyr : d.year = Y - 1 ∨ d.year = Y := by
    by_cases hA : d.year + 1 ≤ Y - 1
    · exfalso
      have hm := (epochDays_le_of_le hA).1
      omega
    by_cases hB : Y + 1 ≤ d.year
    · exfalso
      have hm := (epochDays_le_of_le hB).1
      have hsY := epochDays_succ Y
      omega
    omega
  rcases hyr with hy | hy
  · unfold liturgical_year
    rw [hy]
    rw [if_neg (by omega)]
    omega
  · unfold liturgical_year
    rw [hy]
    rw [if_pos h2]

theorem year_of_spring_date (d : PyDate) (hv : d.Valid)
    (h : epochDays (liturgical_year d) < toOrd d) :
    d.year = liturgical_year d := by
  have htb := toOrd_bounds d hv
  unfold liturgical_year at *
  by_cases hc : toOrd d ≤ liturgical_year_end d.year
  · rw [if_pos hc]
  · rw [if_neg hc] at h ⊢
    exfalso
    omega

theorem mem_sundaysUntil (n : ℕ) :
    ∀ d limit o : Int, (limit - d).toNat ≤ n →
      o ∈ sundaysUntil d limit → d ≤ o ∧ o < limit := by
  induction n with
  | zero =>
    intro d limit o hn h
    unfold sundaysUntil at h
    rw [if_neg (by omega)] at h
    simp at h
  | succ k ih =>
    intro d limit o hn h
    unfold sundaysUntil at h
    by_cases hc : d < limit
    · rw [if_pos hc] at h
      rcases List.mem_cons.mp h with rfl | h
      · exact ⟨le_refl _, hc⟩
      · have := ih (d + 7) limit o (by omega) h
        omega
    · rw [if_neg hc] at h
      simp at h

theorem pentecost_sundays_bounds (n : ℕ) :
    ∀ d limit : Int, (limit + 1 - d).toNat ≤ n →
      (∀ o ∈ (pentecost_sundays d limit).1, d ≤ o ∧ o ≤ limit) ∧
      d ≤ (pentecost_sundays d limit).2 ∧
      (d ≤ limit + 7 → (pentecost_sundays d limit).2 ≤ limit + 7) := by
  induction n with
  | zero =>
    intro d limit hn
    unfold pentecost_sundays
    rw [if_neg (by omega)]
    exact ⟨by simp, le_refl _, fun h => h⟩
  | succ k ih =>
    intro d limit hn
    unfold pentecost_sundays
    by_cases hc : d ≤ limit
    · rw [if_pos hc]
      have hrec := ih (d + 7) limit (by omega)
      refine ⟨?_, by have := hrec.2.1; simp; omega, fun _ => by
        have := hrec.2.2 (by omega); simpa using this⟩
      intro o ho
      rcases List.mem_cons.mp ho with rfl | ho
      · exact ⟨le_refl _, hc⟩
      · have := hrec.1 o ho
        omega
    · rw [if_neg hc]
      exact ⟨by simp, le_refl _, fun h => h⟩

/-! ## Claim theorems -/

/-- C3: for every year in [1583, 9999], `computus` returns a month/day
pair between March 22 and April 25 inclusive, and the five reference
years 2004, 2018, 2019, 2027 and 2050 evaluate to April 11, April 1,
April 21, March 28 and April 10 respectively. -/
theorem computus_in_claimed_range (y : Int) (h1 : 1583 ≤ y) (h2 : y ≤ 9999) :
    (((computusMD y).1 = 3 ∧ 22 ≤ (computusMD y).2 ∧ (computusMD y).2 ≤ 31) ∨
      ((computusMD y).1 = 4 ∧ 1 ≤ (computusMD y).2 ∧ (computusMD y).2 ≤ 25)) ∧
    computusMD 2004 = (4, 11) ∧ computusMD 2018 = (4, 1) ∧
    computusMD 2019 = (4, 21) ∧ computusMD 2027 = (3, 28) ∧
    computusMD 2050 = (4, 10) := by
  refine ⟨?_, by decide, by decide, by decide, by decide, by decide⟩
  have hT := computusT_range y
  unfold computusMD
  omega

theorem computus_in_claimed_range_witness :
    ((1583 : Int) ≤ 2004 ∧ (2004 : Int) ≤ 9999) ∧
    ((((computusMD 2004).1 = 3 ∧ 22 ≤ (computusMD 2004).2 ∧
        (computusMD 2004).2 ≤ 31) ∨
      ((computusMD 2004).1 = 4 ∧ 1 ≤ (computusMD 2004).2 ∧
        (computusMD 2004).2 ≤ 25)) ∧
      computusMD 2004 = (4, 11) ∧ computusMD 2018 = (4, 1) ∧
      computusMD 2019 = (4, 21) ∧ computusMD 2027 = (3, 28) ∧
      computusMD 2050 = (4, 10)) :=
  ⟨⟨by norm_num, by norm_num⟩,
    computus_in_claimed_range 2004 (by norm_num) (by norm_num)⟩

/-- C9: for every year in [1583, 9999], the computus lands on a Sunday
(weekday 6 in Python's Monday-0 convention); consequently the
Sunday-relative offsets such as Palm Sunday land on Sundays too. -/
theorem computus_weekday_is_sunday (y : Int) (h1 : 1583 ≤ y)
    (h2 : y ≤ 9999) :
    weekdayOfOrd (computus y) = 6 ∧ weekdayOfOrd (palm_sunday y) = 6 := by
  have h := computus_mod7 y
  unfold weekdayOfOrd palm_sunday easter
  omega

theorem computus_weekday_is_sunday_witness :
    ((1583 : Int) ≤ 2018 ∧ (2018 : Int) ≤ 9999) ∧
    weekdayOfOrd (computus 2018) = 6 ∧ weekdayOfOrd (palm_sunday 2018) = 6 :=
  ⟨⟨by norm_num, by norm_num⟩,
    computus_weekday_is_sunday 2018 (by norm_num) (by norm_num)⟩

/-- C7: `peters_pence` is June 29 plus `((2 - weekday) % 7) - 3` days;
that date is a Sunday, lies within 3 days of June 29, is the unique
Sunday within 3 days of June 29 (hence the nearest one), and when
June 29 is a Wednesday — the one case where the chosen Sunday is a full
3 days away on the early side — the earlier Sunday is chosen. -/
theorem peters_pence_nearest_sunday (y : Int) :
    peters_pence y =
      toOrd ⟨y, 6, 29⟩ + ((2 - weekdayOfOrd (toOrd ⟨y, 6, 29⟩)) % 7 - 3) ∧
    weekdayOfOrd (peters_pence y) = 6 ∧
    peters_pence y - toOrd ⟨y, 6, 29⟩ ≤ 3 ∧
    toOrd ⟨y, 6, 29⟩ - peters_pence y ≤ 3 ∧
    (weekdayOfOrd (toOrd ⟨y, 6, 29⟩) = 2 →
      peters_pence y = toOrd ⟨y, 6, 29⟩ - 3) ∧
    ∀ s : Int, weekdayOfOrd s = 6 → s - toOrd ⟨y, 6, 29⟩ ≤ 3 →
      toOrd ⟨y, 6, 29⟩ - s ≤ 3 → s = peters_pence y := by
  unfold peters_pence weekdayOfOrd
  refine ⟨rfl, by omega, by omega, by omega, by omega,
    fun s hs h1 h2 => by omega⟩

theorem peters_pence_nearest_sunday_witness :
    peters_pence 2018 = toOrd ⟨2018, 7, 1⟩ ∧
    weekdayOfOrd (peters_pence 2018) = 6 :=
  ⟨by decide, (peters_pence_nearest_sunday 2018).2.1⟩

/-- C6: `lady_day` is March 25, moved to the day after Quasimodo Sunday
when March 25 falls in the closed interval [Palm Sunday, Quasimodo
Sunday], otherwise moved to the following Monday when March 25 is itself
a Sunday; and `lady_day 2018 = April 9`. -/
theorem lady_day_rule (y : Int) :
    (palm_sunday y ≤ toOrd ⟨y, 3, 25⟩ ∧
        toOrd ⟨y, 3, 25⟩ ≤ quasimodo_sunday y →
      lady_day y = quasimodo_sunday y + 1) ∧
    (¬(palm_sunday y ≤ toOrd ⟨y, 3, 25⟩ ∧
        toOrd ⟨y, 3, 25⟩ ≤ quasimodo_sunday y) →
      weekdayOfOrd (toOrd ⟨y, 3, 25⟩) = 6 →
      lady_day y = toOrd ⟨y, 3, 25⟩ + 1) ∧
    (¬(palm_sunday y ≤ toOrd ⟨y, 3, 25⟩ ∧
        toOrd ⟨y, 3, 25⟩ ≤ quasimodo_sunday y) →
      weekdayOfOrd (toOrd ⟨y, 3, 25⟩) ≠ 6 →
      lady_day y = toOrd ⟨y, 3, 25⟩) ∧
    lady_day 2018 = toOrd ⟨2018, 4, 9⟩ := by
  refine ⟨?_, ?_, ?_, by decide⟩
  · intro h1
    unfold lady_day
    rw [if_pos h1]
  · intro h1 h2
    unfold lady_day
    rw [if_neg h1, if_pos h2]
  · intro h1 h2
    unfold lady_day
    rw [if_neg h1, if_neg h2]

theorem lady_day_rule_witness :
    (palm_sunday 2018 ≤ toOrd ⟨2018, 3, 25⟩ ∧
      toOrd ⟨2018, 3, 25⟩ ≤ quasimodo_sunday 2018) ∧
    lady_day 2018 = quasimodo_sunday 2018 + 1 ∧
    lady_day 2018 = toOrd ⟨2018, 4, 9⟩ :=
  ⟨by decide, (lady_day_rule 2018).1 (by decide),
    (lady_day_rule 2018).2.2.2⟩

/-- C5: the liturgical-year boundary functions are as described
(`liturgical_year_start Y` the Sunday `22 + weekday(Dec 25 of Y-1)` days
before that Christmas, `liturgical_year_end Y` the Saturday
`23 + weekday(Dec 25 of Y)` days before the next Christmas,
`liturgical_year` comparing against `liturgical_year_end date.year`);
the year of the end date is `Y`, the day after maps to `Y + 1`, every
date strictly between `start Y` and `end (Y+1)` maps to exactly one of
`Y` and `Y + 1` with no gap, and the length of the year is between 363
and 371 days. -/
theorem liturgical_year_boundary_properties (Y : Int) :
    liturgical_year_start Y =
      xmasOrd (Y - 1) - (weekdayOfOrd (xmasOrd (Y - 1)) + 22) ∧
    liturgical_year_end Y = xmasOrd Y - (weekdayOfOrd (xmasOrd Y) + 23) ∧
    weekdayOfOrd (liturgical_year_start Y) = 6 ∧
    weekdayOfOrd (liturgical_year_end Y) = 5 ∧
    (∀ d : PyDate, liturgical_year d =
      if toOrd d ≤ liturgical_year_end d.year then d.year else d.year + 1) ∧
    (∀ d : PyDate, d.Valid → toOrd d = liturgical_year_end Y →
      liturgical_year d = Y) ∧
    (∀ d : PyDate, d.Valid → toOrd d = liturgical_year_end Y + 1 →
      liturgical_year d = Y + 1) ∧
    (∀ d : PyDate, d.Valid → liturgical_year_start Y < toOrd d →
      toOrd d < liturgical_year_end (Y + 1) →
      ((liturgical_year d = Y ↔ toOrd d ≤ liturgical_year_end Y) ∧
        (liturgical_year d = Y + 1 ↔ liturgical_year_end Y < toOrd d))) ∧
    363 ≤ liturgical_year_end Y - liturgical_year_start Y ∧
    liturgical_year_end Y - liturgical_year_start Y ≤ 371 := by
  have hsY := lys_eq Y
  have heY := lye_eq Y
  have heY1 := lye_eq (Y - 1)
  have heY2 := lye_eq (Y + 1)
  have hsucc1 := epochDays_succ (Y - 1)
  rw [show Y - 1 + 1 = Y from by ring] at hsucc1
  have hsucc2 := epochDays_succ Y
  have hl := leapN_bounds Y
  have hl1 := leapN_bounds (Y - 1)
  have hl2 := leapN_bounds (Y + 1)
  refine ⟨rfl, rfl, by unfold weekdayOfOrd; omega,
    by unfold weekdayOfOrd; omega, fun d => rfl, ?_, ?_, ?_,
    by omega, by omega⟩
  · intro d hv hoe
    exact liturgical_year_eq d Y hv (by omega) (by omega)
  · intro d hv hoe
    apply liturgical_year_eq d (Y + 1) hv
    · rw [show Y + 1 - 1 = Y from by ring]
      omega
    · omega
  · intro d hv h1 h2
    by_cases hc : toOrd d ≤ liturgical_year_end Y
    · have hly := liturgical_year_eq d Y hv (by omega) hc
      omega
    · have hly := liturgical_year_eq d (Y + 1) hv
        (by rw [show Y + 1 - 1 = Y from by ring]; omega) (by omega)
      omega

theorem liturgical_year_boundary_properties_witness :
    (⟨2018, 12, 1⟩ : PyDate).Valid ∧
    toOrd ⟨2018, 12, 1⟩ = liturgical_year_end 2018 ∧
    liturgical_year ⟨2018, 12, 1⟩ = 2018 ∧
    weekdayOfOrd (liturgical_year_start 2018) = 6 :=
  ⟨by decide, by decide,
    (liturgical_year_boundary_properties 2018).2.2.2.2.2.1 ⟨2018, 12, 1⟩
      (by decide) (by decide),
    (liturgical_year_boundary_properties 2018).2.2.1⟩

theorem isSome_ite_some {c : Prop} [Decidable c] {a : String}
    {b : Option String} (h : ¬c → b.isSome = true) :
    (if c then some a else b).isSome = true := by
  split
  · rfl
  · next hn => exact h hn

theorem season_chain_core (o E B L P : Int)
    (hE1 : B + L + 81 ≤ E) (hE2 : E ≤ B + L + 115)
    (hL0 : 0 ≤ L) (hL1 : L ≤ 1)
    (hs : B - 28 - B % 7 ≤ o)
    (he : o ≤ B + L + 336 - (B + L + 1) % 7)
    (hpd : P = E - 7 ∨ o < E - 7) :
    (if o = E - 52 ∨ o = E - 48 ∨ o = E - 47 then some "Shrovetide"
      else if B - 28 - B % 7 ≤ o ∧ o < B - 6 then some "Advent"
      else if B - 6 ≤ o ∧ o < B + 6 then some "Christmastide"
      else if B + 6 ≤ o ∧ o < E - 63 then some "Time after Epiphany"
      else if E - 63 ≤ o ∧ o < E - 46 then some "Septuagesima"
      else if E - 46 ≤ o ∧ o < E - 14 then some "Lent"
      else if E - 14 ≤ o ∧ o < E - 7 then some "Passiontide"
      else if P ≤ o ∧ o < E - 3 then some "Holy Week"
      else if E - 3 ≤ o ∧ o < E then some "Paschal Triduum"
      else if E ≤ o ∧ o < E + 49 then some "Eastertide"
      else if E + 49 ≤ o ∧ o < B + 273 + L + 31 then
        some "Time after Pentecost"
      else if B + 273 + L + 31 ≤ o ∧ o < B + 304 + L + 3 then
        some "Hallowtide"
      else if B + 304 + L + 3 ≤ o ∧ o ≤ B + L + 336 - (B + L + 1) % 7 then
        some "Time after Pentecost"
      else none).isSome = true := by
  apply isSome_ite_some; intro h1
  apply isSome_ite_some; intro h2
  apply isSome_ite_some; intro h3
  apply isSome_ite_some; intro h4
  apply isSome_ite_some; intro h5
  apply isSome_ite_some; intro h6
  apply isSome_ite_some; intro h7
  apply isSome_ite_some; intro h8
  apply isSome_ite_some; intro h9
  apply isSome_ite_some; intro h10
  apply isSome_ite_some; intro h11
  apply isSome_ite_some; intro h12
  apply isSome_ite_some; intro h13
  exfalso
  omega

/-- C2: for every valid date lying within its own liturgical year's range
(between `liturgical_year_start` and `liturgical_year_end` of
`liturgical_year date`), the season classifier — the thirteen interval
tests of `LiturgicalSeason.from_date` evaluated in their source order —
selects a season, so the final `raise ValueError` branch (embedded as
`none`) is unreachable for such dates. -/
theorem season_classifier_total (d : PyDate) (hv : d.Valid)
    (hs : liturgical_year_start (liturgical_year d) ≤ toOrd d)
    (he : toOrd d ≤ liturgical_year_end (liturgical_year d)) :
    (seasonOfDate d).isSome = true := by
  have hE := easter_bounds (liturgical_year d)
  have hlp := leapN_bounds (liturgical_year d)
  have hxp := xmasOrd_prev (liturgical_year d)
  have hj6 := toOrd_jan (liturgical_year d) 6
  have hoct := toOrd_oct (liturgical_year d) 31
  have hnov := toOrd_nov (liturgical_year d) 3
  have hsY := lys_eq (liturgical_year d)
  have heY := lye_eq (liturgical_year d)
  have e1 : fat_thursday (liturgical_year d) =
      computus (liturgical_year d) - 52 := by
    unfold fat_thursday ash_wednesday easter; ring
  have e2 : shrove_monday (liturgical_year d) =
      computus (liturgical_year d) - 48 := by
    unfold shrove_monday ash_wednesday easter; ring
  have e3 : mardi_gras (liturgical_year d) =
      computus (liturgical_year d) - 47 := by
    unfold mardi_gras ash_wednesday easter; ring
  have e4 : ash_wednesday (liturgical_year d) =
      computus (liturgical_year d) - 46 := by
    unfold ash_wednesday easter; ring
  have e5 : septuagesima (liturgical_year d) =
      computus (liturgical_year d) - 63 := by
    unfold septuagesima sexagesima quinquagesima ash_wednesday easter; ring
  have e6 : passion_sunday (liturgical_year d) =
      computus (liturgical_year d) - 14 := by
    unfold passion_sunday; ring
  have e7 : palm_sunday (liturgical_year d) =
      computus (liturgical_year d) - 7 := by
    unfold palm_sunday easter; ring
  have e8 : maundy_thursday (liturgical_year d) =
      computus (liturgical_year d) - 3 := by
    unfold maundy_thursday easter; ring
  have e9 : pentecost (liturgical_year d) =
      computus (liturgical_year d) + 49 := by
    unfold pentecost; ring
  have e10 : easter (liturgical_year d) = computus (liturgical_year d) := rfl
  have e11 : palm_sunday d.year = computus d.year - 7 := by
    unfold palm_sunday easter; ring
  have hpd : palm_sunday d.year = palm_sunday (liturgical_year d) ∨
      toOrd d < palm_sunday (liturgical_year d) := by
    by_cases hlt : toOrd d < palm_sunday (liturgical_year d)
    · exact Or.inr hlt
    · left
      have hy : d.year = liturgical_year d := by
        apply year_of_spring_date d hv
        rw [e7] at hlt
        omega
      rw [hy]
  rw [hsY] at hs
  rw [heY] at he
  rw [e7, e11] at hpd
  unfold seasonOfDate
  rw [e1, e2, e3, e4, e5, e6, e7, e8, e9, e10, e11, hxp, hj6, hoct, hnov,
    hsY, heY]
  exact season_chain_core (toOrd d) (computus (liturgical_year d))
    (epochDays (liturgical_year d)) (leapN (liturgical_year d))
    (computus d.year - 7) hE.1 hE.2 hlp.1 hlp.2 hs he hpd

theorem season_classifier_total_witness :
    (⟨2018, 12, 4⟩ : PyDate).Valid ∧
    liturgical_year_start (liturgical_year ⟨2018, 12, 4⟩) ≤
      toOrd ⟨2018, 12, 4⟩ ∧
    toOrd ⟨2018, 12, 4⟩ ≤
      liturgical_year_end (liturgical_year ⟨2018, 12, 4⟩) ∧
    (seasonOfDate ⟨2018, 12, 4⟩).isSome = true :=
  ⟨by decide, by decide, by decide,
    season_classifier_total ⟨2018, 12, 4⟩ (by decide) (by decide)
      (by decide)⟩

/-- C10: for every liturgical year, every date produced by the registered
movable-feast functions and by the positional-Sunday computations lies in
the closed interval `[liturgical_year_start, liturgical_year_end]`, so
each per-date append of `LiturgicalYear.__init__` addresses a dictionary
key created by the initialization pass. -/
theorem assembly_dates_in_bounds (y : Int) (hy1 : 2 ≤ y) (hy2 : y ≤ 9999) :
    (∀ o ∈ all_movable_feast_dates y,
      liturgical_year_start y ≤ o ∧ o ≤ liturgical_year_end y) ∧
    (∀ o ∈ all_positional_sunday_dates y,
      liturgical_year_start y ≤ o ∧ o ≤ liturgical_year_end y) := by
  have hE := easter_bounds y
  have hl := leapN_bounds y
  have hxp := xmasOrd_prev y
  have hsY := lys_eq y
  have heY := lye_eq y
  have hj1 := toOrd_jan y 1
  have hj2 := toOrd_jan y 2
  have hj6 := toOrd_jan y 6
  have hj7 := toOrd_jan y 7
  have hb1 : epochDays y - 5 ≤ sunday_within_the_octave_of_xmas y ∧
      sunday_within_the_octave_of_xmas y ≤ epochDays y + 1 := by
    unfold sunday_within_the_octave_of_xmas weekdayOfOrd
    rw [hxp]
    split_ifs <;> omega
  have hb2 : epochDays y + 2 ≤ holy_name y ∧ holy_name y ≤ epochDays y + 7 := by
    unfold holy_name weekdayOfOrd
    rw [hj1, hj2, hj6, hj7]
    split_ifs <;> omega
  have hb3 : epochDays y + 7 ≤ holy_family y ∧
      holy_family y ≤ epochDays y + 13 := by
    unfold holy_family weekdayOfOrd
    rw [hj6]
    split_ifs <;> omega
  have hb4 : epochDays y + 7 ≤ plough_monday y ∧
      plough_monday y ≤ epochDays y + 14 := by
    unfold plough_monday weekdayOfOrd
    rw [hj6]
    split_ifs <;> omega
  have hb5 : epochDays y + 55 ≤ st_matthias y ∧
      st_matthias y ≤ epochDays y + 56 := by
    unfold st_matthias
    rw [toOrd_feb y 24, toOrd_feb y 25]
    split_ifs <;> omega
  have hb6 : epochDays y + 58 ≤ st_gabriel_of_our_lady_of_sorrows y ∧
      st_gabriel_of_our_lady_of_sorrows y ≤ epochDays y + 59 := by
    unfold st_gabriel_of_our_lady_of_sorrows
    rw [toOrd_feb y 27, toOrd_feb y 28]
    split_ifs <;> omega
  have hb7 : epochDays y + 84 ≤ lady_day y ∧
      lady_day y ≤ computus y + 8 := by
    unfold lady_day quasimodo_sunday palm_sunday easter weekdayOfOrd
    rw [toOrd_mar y 25]
    split_ifs <;> omega
  have hb8 : epochDays y + leapN y + 115 ≤ major_rogation y ∧
      major_rogation y ≤ epochDays y + leapN y + 117 := by
    unfold major_rogation
    rw [toOrd_apr y 25]
    split_ifs <;> omega
  constructor
  · intro o ho
    simp only [all_movable_feast_dates, advent_embertide, lenten_embertide,
      minor_rogation, whit_embertide, michaelmas_embertide, List.mem_append,
      List.mem_cons, List.not_mem_nil, or_false] at ho
    simp only [gaudete_sunday, septuagesima, sexagesima, quinquagesima,
      fat_thursday, shrove_monday, mardi_gras, ash_wednesday,
      laetare_sunday, passion_sunday, seven_sorrows, palm_sunday,
      spy_wednesday, maundy_thursday, good_friday, holy_saturday,
      quasimodo_sunday, jubilate_sunday, misericordia_sunday,
      cantate_sunday, ascension, pentecost, trinity_sunday,
      corpus_christi, sacred_heart, peters_pence,
      first_sunday_in_september, third_sunday_in_september,
      christ_the_king, easter, weekdayOfOrd] at ho
    rw [hxp, toOrd_jun y 29, toOrd_sep y 1, toOrd_oct y 31] at ho
    rw [hsY, heY]
    omega
  · intro o ho
    have hAdv : ∀ o ∈ advent_sunday_dates y,
        liturgical_year_start y ≤ o ∧ o ≤ liturgical_year_end y := by
      intro o ho
      simp only [advent_sunday_dates, List.mem_cons, List.not_mem_nil,
        or_false] at ho
      rcases ho with rfl | rfl | rfl <;> rw [hsY, heY] at * <;> omega
    have hSept : septuagesima y = computus y - 63 := by
      unfold septuagesima sexagesima quinquagesima ash_wednesday easter
      ring
    have hEp : ∀ o ∈ epiphany_sunday_dates y,
        liturgical_year_start y ≤ o ∧ o ≤ liturgical_year_end y := by
      intro o ho
      have hm := mem_sundaysUntil
        ((septuagesima y - (holy_family y + 7)).toNat)
        (holy_family y + 7) (septuagesima y) o (le_refl _) ho
      rw [hSept] at hm
      rw [hsY, heY]
      omega
    have hLent : ∀ o ∈ lent_sunday_dates y,
        liturgical_year_start y ≤ o ∧ o ≤ liturgical_year_end y := by
      intro o ho
      simp only [lent_sunday_dates, List.mem_cons, List.not_mem_nil,
        or_false] at ho
      simp only [quinquagesima, ash_wednesday, easter] at ho
      rw [hsY, heY]
      omega
    have hEast : ∀ o ∈ eastertide_sunday_dates y,
        liturgical_year_start y ≤ o ∧ o ≤ liturgical_year_end y := by
      intro o ho
      simp only [eastertide_sunday_dates, List.mem_cons, List.not_mem_nil,
        or_false] at ho
      simp only [cantate_sunday, ascension, easter] at ho
      rw [hsY, heY]
      omega
    have hTrin : trinity_sunday y = computus y + 56 := by
      unfold trinity_sunday pentecost
      ring
    have hPent : ∀ o ∈ pentecost_sunday_dates y,
        liturgical_year_start y ≤ o ∧ o ≤ liturgical_year_end y := by
      intro o ho
      simp only [pentecost_sunday_dates, List.mem_append, List.mem_cons,
        List.not_mem_nil, or_false] at ho
      have hps := pentecost_sundays_bounds
        ((liturgical_year_end y - 7 + 1 - (trinity_sunday y + 7)).toNat)
        (trinity_sunday y + 7) (liturgical_year_end y - 7) (le_refl _)
      rcases ho with ho | rfl
      · have := hps.1 o ho
        rw [hTrin] at this
        rw [hsY, heY] at *
        omega
      · have h1 := hps.2.1
        have h2 := hps.2.2 (by rw [hTrin]; rw [heY] at *; omega)
        rw [hTrin] at h1
        rw [hsY, heY] at *
        omega
    simp only [all_positional_sunday_dates, List.mem_append] at ho
    rcases ho with ((((ho | ho) | ho) | ho) | ho)
    · exact hAdv o ho
    · exact hEp o ho
    · exact hLent o ho
    · exact hEast o ho
    · exact hPent o ho

theorem assembly_dates_in_bounds_witness :
    ((2 : Int) ≤ 2018 ∧ (2018 : Int) ≤ 9999) ∧
    (∀ o ∈ all_movable_feast_dates 2018,
      liturgical_year_start 2018 ≤ o ∧ o ≤ liturgical_year_end 2018) ∧
    (∀ o ∈ all_positional_sunday_dates 2018,
      liturgical_year_start 2018 ≤ o ∧ o ≤ liturgical_year_end 2018) :=
  ⟨⟨by norm_num, by norm_num⟩,
    assembly_dates_in_bounds 2018 (by norm_num) (by norm_num)⟩

/-- C1 counterexample: `_feast_sort_key` has no branch for vigils, so a
second-class vigil that is not flagged as an addition gets its own rank 2
as its key, not rank + 0.5 as the claim states. -/
theorem feast_sort_key_vigil_counterexample :
    feast_sort_key ⟨"Vigil of SS. Peter and Paul", some 2, true, false⟩ = 2 ∧
    (2 : ℚ) ≠ 2 + 0.5 := by
  constructor
  · decide
  · norm_num

/-- C1 (amended): the per-day sort orders events by the precedence key of
`_feast_sort_key` (no liturgy or falsy rank = 4, addition = rank + 0.5,
otherwise the rank itself; no special vigil case), keeps exactly the
day's events, resolves ties by stable insertion order, and puts an event
of key 1 at index 0 whenever one is present among events of key at
least 1 — regardless of append order. -/
theorem day_sort_precedence (l : List LiturgicalCalendarEvent) :
    (sortDayEvents l).Pairwise
      (fun a b => feast_sort_key a ≤ feast_sort_key b) ∧
    List.Perm (sortDayEvents l) l ∧
    (∀ a b : LiturgicalCalendarEvent, feast_sort_key a ≤ feast_sort_key b →
      List.Sublist [a, b] l → List.Sublist [a, b] (sortDayEvents l)) ∧
    (∀ e ∈ l, feast_sort_key e = 1 → (∀ f ∈ l, 1 ≤ feast_sort_key f) →
      ∃ h t, sortDayEvents l = h :: t ∧ feast_sort_key h = 1) := by
  have htrans : ∀ a b c : LiturgicalCalendarEvent,
      decide (feast_sort_key a ≤ feast_sort_key b) = true →
      decide (feast_sort_key b ≤ feast_sort_key c) = true →
      decide (feast_sort_key a ≤ feast_sort_key c) = true := by
    intro a b c hab hbc
    simp only [decide_eq_true_eq] at *
    exact le_trans hab hbc
  have htotal : ∀ a b : LiturgicalCalendarEvent,
      (decide (feast_sort_key a ≤ feast_sort_key b) ||
        decide (feast_sort_key b ≤ feast_sort_key a)) = true := by
    intro a b
    simp only [Bool.or_eq_true, decide_eq_true_eq]
    exact le_total _ _
  refine ⟨?_, List.mergeSort_perm l _, ?_, ?_⟩
  · have hs := List.sorted_mergeSort htrans htotal l
    exact hs.imp fun h => by simpa using h
  · intro a b hab hsub
    exact List.pair_sublist_mergeSort htrans htotal
      (by simpa using hab) hsub
  · intro e he hk hmin
    have hsorted := List.sorted_mergeSort htrans htotal l
    unfold sortDayEvents
    cases hsd : l.mergeSort
        (fun a b => decide (feast_sort_key a ≤ feast_sort_key b)) with
    | nil =>
      exfalso
      have hm : e ∈ l.mergeSort
          (fun a b => decide (feast_sort_key a ≤ feast_sort_key b)) :=
        List.mem_mergeSort.mpr he
      rw [hsd] at hm
      simp at hm
    | cons h t =>
      refine ⟨h, t, rfl, ?_⟩
      have hhm : h ∈ l := by
        have : h ∈ l.mergeSort
            (fun a b => decide (feast_sort_key a ≤ feast_sort_key b)) := by
          rw [hsd]
          exact List.mem_cons_self h t
        exact List.mem_mergeSort.mp this
      have hh1 : 1 ≤ feast_sort_key h := hmin h hhm
      have hem : e ∈ h :: t := by
        have : e ∈ l.mergeSort
            (fun a b => decide (feast_sort_key a ≤ feast_sort_key b)) :=
          List.mem_mergeSort.mpr he
        rw [hsd] at this
        exact this
      rw [hsd] at hsorted
      rcases List.mem_cons.mp hem with rfl | hem'
      · exact le_antisymm (le_of_eq hk) hh1
      · have hle := (List.pairwise_cons.mp hsorted).1 e hem'
        simp only [decide_eq_true_eq] at hle
        rw [hk] at hle
        exact le_antisymm hle hh1

theorem day_sort_precedence_witness :
    ((⟨"Easter", some 1, true, false⟩ : LiturgicalCalendarEvent) ∈
      [(⟨"St. Nicholas", some 3, true, false⟩ : LiturgicalCalendarEvent),
        ⟨"Easter", some 1, true, false⟩]) ∧
    feast_sort_key ⟨"Easter", some 1, true, false⟩ = 1 ∧
    (∀ f ∈ [(⟨"St. Nicholas", some 3, true, false⟩ :
        LiturgicalCalendarEvent), ⟨"Easter", some 1, true, false⟩],
      1 ≤ feast_sort_key f) ∧
    ∃ h t,
      sortDayEvents [⟨"St. Nicholas", some 3, true, false⟩,
        ⟨"Easter", some 1, true, false⟩] = h :: t ∧
      feast_sort_key h = 1 :=
  ⟨by decide, by decide, by decide,
    (day_sort_precedence _).2.2.2 ⟨"Easter", some 1, true, false⟩
      (by decide) (by decide) (by decide)⟩

/-- C4 counterexample: an event that is not fixed (movable), liturgical,
of rank 2, with no explicit color, falling in Advent (color Violet,
pinned by the repository's tests) receives the season's color from the
code, while the claim's rule — which only inherits the season color for
movable events when they fall in Lent/Passiontide — prescribes White. -/
theorem event_color_counterexample :
    derivedEventColor "Advent" "Violet" (some 2) true false [] = "Violet" ∧
    claimEventColor "Advent" "Violet" (some 2) true false [] = "White" ∧
    derivedEventColor "Advent" "Violet" (some 2) true false [] ≠
      claimEventColor "Advent" "Violet" (some 2) true false [] := by
  refine ⟨by decide, by decide, by decide⟩

/-- C4 (amended): with no explicit color, the derived color is White
unless the event has no special liturgy, or its rank is 4, or it is not
a fixed feast, or it falls during Lent/Passiontide at other than the
highest rank — in those cases the color is inherited from the season —
and Martyr/Apostle/Evangelist titles override White to Red. -/
theorem event_color_rule (sn sc : String) (rank : Option Int)
    (lit fixed : Bool) (titles : List String) :
    derivedEventColor sn sc rank lit fixed titles =
      if lit = true ∧ rank ≠ some 4 ∧ fixed = true ∧
          (rank = some 1 ∨ ¬(sn = "Lent" ∨ sn = "Passiontide")) then
        (if "Martyr" ∈ titles ∨ "Apostle" ∈ titles ∨ "Evangelist" ∈ titles
          then "Red" else "White")
      else sc := by
  unfold derivedEventColor
  refine if_congr ?_ rfl rfl
  constructor
  · rintro ⟨h1, h2, h3, h4⟩
    refine ⟨h1, h2, h3, ?_⟩
    by_cases hr : rank = some 1
    · exact Or.inl hr
    · refine Or.inr fun hsn => h4 ⟨hr, hsn⟩
  · rintro ⟨h1, h2, h3, h4⟩
    refine ⟨h1, h2, h3, ?_⟩
    rintro ⟨hr, hsn⟩
    rcases h4 with h4 | h4
    · exact hr h4
    · exact h4 hsn

theorem lookup_map_build (k : Int)
    (build : Int → Int → Option (List LiturgicalCalendarEvent)) :
    ∀ years : List Int,
      (years.map fun y => (y, build y)).lookup k =
        if k ∈ years then some (build k) else none := by
  intro years
  induction years with
  | nil => simp [List.lookup]
  | cons a as ih =>
    by_cases hk : k = a
    · subst hk
      simp [List.lookup]
    · have hbeq : (k == a) = false := beq_eq_false_iff_ne.mpr hk
      simp only [List.map_cons, List.lookup, hbeq, List.mem_cons]
      rw [ih]
      by_cases hmem : k ∈ as
      · rw [if_pos hmem, if_pos (Or.inr hmem)]
      · rw [if_neg hmem, if_neg ?_]
        rintro (h | h)
        · exact hk h
        · exact hmem h

/-- C8: a multi-year calendar lookup dispatches the date to the per-year
assembly of `liturgical_year date` and returns that assembly's entry;
when that liturgical year was never loaded the lookup fails with a
KeyError rather than returning an empty result. -/
theorem calendar_getitem_dispatch (years : List Int)
    (build : Int → Int → Option (List LiturgicalCalendarEvent))
    (d : PyDate) :
    (liturgical_year d ∉ years →
      (LiturgicalCalendarModel.ofYears years build).getItem d =
        Except.error "KeyError: liturgical year not loaded") ∧
    (liturgical_year d ∈ years →
      (LiturgicalCalendarModel.ofYears years build).getItem d =
        match build (liturgical_year d) (toOrd d) with
        | none => Except.error "KeyError: date not in liturgical year"
        | some evs => Except.ok evs) := by
  unfold LiturgicalCalendarModel.getItem LiturgicalCalendarModel.ofYears
  constructor
  · intro hnm
    rw [lookup_map_build, if_neg hnm]
  · intro hm
    rw [lookup_map_build, if_pos hm]

theorem calendar_getitem_dispatch_witness :
    liturgical_year ⟨2018, 12, 25⟩ ∉ ([2018] : List Int) ∧
    (LiturgicalCalendarModel.ofYears [2018]
        fun _ _ => some []).getItem ⟨2018, 12, 25⟩ =
      Except.error "KeyError: liturgical year not loaded" :=
  ⟨by decide,
    (calendar_getitem_dispatch [2018] (fun _ _ => some [])
      ⟨2018, 12, 25⟩).1 (by decide)⟩

end Trident
